import Mathlib

/-!
Shallow embedding of the `las-bounds` tool (src/src/main.rs).

The program scans a directory for files with the extension "las", reads each
file's header bounding box, and writes one ESRI shapefile (named after the
directory with its extension swapped to "shp") containing a polygon layer
"bounds" with string fields "name" and "path" and one rectangle feature per
input file.

Modelling choices:
  * Paths are UTF-8 strings (the Rust code is given valid UTF-8 in the model,
    so `to_str`/`to_string_lossy` are the identity).
  * `f64` coordinates are modelled as `Int`: the program performs no
    arithmetic on coordinates, it only copies them, so any coordinate type
    with decidable equality is faithful for the structural claims.
  * All external effects (the directory listing, the LAS reader, the GDAL
    driver/dataset/layer/field/feature calls and EPSG resolution) are oracles
    collected in a `World`; the run is the deterministic function `main` of
    the world and the CLI arguments, returning the emitted event trace, the
    output dataset path, the final layer state and the final result.
-/

namespace LasBounds

/-- Decidable equality for `Except`, used to evaluate run results on
concrete inputs. -/
instance {ε α : Type} [DecidableEq ε] [DecidableEq α] :
    DecidableEq (Except ε α) := fun x y =>
  match x, y with
  | .ok a, .ok b =>
    match decEq a b with
    | isTrue h => isTrue (congrArg Except.ok h)
    | isFalse h => isFalse (fun hh => h (by cases hh; rfl))
  | .error a, .error b =>
    match decEq a b with
    | isTrue h => isTrue (congrArg Except.error h)
    | isFalse h => isFalse (fun hh => h (by cases hh; rfl))
  | .ok _, .error _ => isFalse (fun hh => Except.noConfusion hh)
  | .error _, .ok _ => isFalse (fun hh => Except.noConfusion hh)

/-! ### Path model (Rust `std::path::Path` on UTF-8 strings) -/

/-- Split a character list at every occurrence of `sep`
(the single-separator case of Rust string splitting). -/
def splitChar (sep : Char) : List Char → List (List Char)
  | [] => [[]]
  | c :: rest =>
    let r := splitChar sep rest
    if c = sep then [] :: r
    else
      match r with
      | h :: t => (c :: h) :: t
      | [] => [[c]]

/-- Split a character list around its LAST occurrence of `sep`:
returns `(before, after)`, or `none` when `sep` does not occur. -/
def lastSplit (sep : Char) : List Char → Option (List Char × List Char)
  | [] => none
  | c :: rest =>
    match lastSplit sep rest with
    | some (before, after) => some (c :: before, after)
    | none => if c = sep then some ([], rest) else none

/-- The components of a path: split on the separator, dropping empty
components and "." (Rust `Path::components` normalisation). -/
def Path.components (p : String) : List String :=
  ((splitChar (Char.ofNat 47) p.data).map String.mk).filter
    (fun c => c != "" && c != ".")

/-- Rust `Path::file_name`: the final component, unless it is "..". -/
def Path.fileName (p : String) : Option String :=
  match (Path.components p).getLast? with
  | none => none
  | some c => if c = ".." then none else some c

/-- Rust `Path::extension`: the part of the file name after its last dot,
`none` when there is no file name, no dot, or the dot is the first
character of the file name. -/
def Path.extension (p : String) : Option String :=
  match Path.fileName p with
  | none => none
  | some f =>
    match lastSplit (Char.ofNat 46) f.data with
    | none => none
    | some (st, ex) => if st = [] then none else some (String.mk ex)

/-- Rust `Path::file_stem` applied to a bare file name: the part before the
last dot, or the whole name when there is no dot or the dot is first. -/
def stemOf (f : String) : String :=
  match lastSplit (Char.ofNat 46) f.data with
  | none => f
  | some (st, _) => if st = [] then f else String.mk st

/-- Drop trailing path separators. -/
def dropTrailingSlashes (s : List Char) : List Char :=
  (s.reverse.dropWhile (fun c => c == Char.ofNat 47)).reverse

/-- Rust `Path::with_extension`: the path unchanged when it has no file name,
otherwise the final component's stem followed by `"." ++ ext`. -/
def Path.withExtension (p ext : String) : String :=
  match Path.fileName p with
  | none => p
  | some _ =>
    let s := dropTrailingSlashes p.data
    match lastSplit (Char.ofNat 47) s with
    | some (dirPart, last) =>
      String.mk dirPart ++ "/" ++ stemOf (String.mk last) ++
        (if ext = "" then "" else "." ++ ext)
    | none =>
      stemOf (String.mk s) ++ (if ext = "" then "" else "." ++ ext)

/-- Rust `str::parse::<u32>`: optional leading plus sign, then one or more
ASCII digits, rejecting values that overflow 32 bits. -/
def parseU32 (s : String) : Option Nat :=
  let cs :=
    match s.data with
    | c :: rest => if c = Char.ofNat 43 then rest else c :: rest
    | [] => []
  if cs = [] then none
  else if cs.all (fun c => c.isDigit) then
    let n := cs.foldl (fun a c => a * 10 + (c.toNat - 48)) 0
    if n < 4294967296 then some n else none
  else none

/-! ### Error model (`enum LasBoundsError`, main.rs lines 16-21) -/

/-- Payload of a `gdal::errors::Error`. -/
structure GdalErr where
  msg : String
deriving DecidableEq, Repr

/-- Payload of a `std::io::Error`. -/
structure IOErr where
  msg : String
deriving DecidableEq, Repr

/-- Payload of a `las::Error`. -/
structure LasErr where
  msg : String
deriving DecidableEq, Repr

/-- The program's error enumeration, translated from `enum LasBoundsError`. -/
inductive LasBoundsError where
  | GdalError (e : GdalErr)
  | IOError (e : IOErr)
  | LASError (e : LasErr)
  | Custom (s : String)
deriving DecidableEq, Repr

/-! ### Data model -/

/-- A 3-d coordinate triple (`las::Vector<f64>`). -/
structure Vector3 where
  x : Int
  y : Int
  z : Int
deriving DecidableEq, Repr

/-- `las::Bounds`: the header's axis-aligned bounding box. -/
structure Bounds where
  min : Vector3
  max : Vector3
deriving DecidableEq, Repr

/-- A resolved coordinate system (`gdal::spatial_ref::SpatialRef`),
remembered by the EPSG code it was resolved from. -/
structure SpatialRef where
  epsg : Nat
deriving DecidableEq, Repr

/-- The one OGR field type the program uses. -/
inductive OGRFieldType where
  | OFTString
deriving DecidableEq, Repr

/-- The one OGR geometry type the program uses. -/
inductive OGRwkbGeometryType where
  | wkbPolygon
deriving DecidableEq, Repr

/-- Modelled from the spec: `gdal::vector::Geometry::bbox` is provided by the
external gdal crate and its body is not part of this repository's sources;
the spec describes it as producing the closed five-vertex rectangular ring
(minX,minY) → (maxX,minY) → (maxX,maxY) → (minX,maxY) → (minX,minY). -/
def Geometry.bbox (minX minY maxX maxY : Int) : List (Int × Int) :=
  [(minX, minY), (maxX, minY), (maxX, maxY), (minX, maxY), (minX, minY)]

/-- One directory entry as reported by `read_dir`: its full path and whether
it is a directory. -/
structure DirEntry where
  path : String
  isDir : Bool
deriving DecidableEq, Repr

/-- The external world: every fallible external operation the program calls,
for the single scanned directory of one run. `readDir` is the result of
opening the directory, whose elements are the per-entry results. -/
structure World where
  readDir : Except IOErr (List (Except IOErr DirEntry))
  lasRead : String → Except LasErr Bounds
  epsgResolve : Nat → Except GdalErr SpatialRef
  driverGet : Except GdalErr Unit
  dsCreate : String → Except GdalErr Unit
  layerCreate : Except GdalErr Unit
  fieldsCreate : Except GdalErr Unit
  featureCreate : String → Except GdalErr Unit

/-- One feature written to the layer: ring geometry plus attribute names and
string values. -/
structure Feature where
  ring : List (Int × Int)
  fieldNames : List String
  fieldValues : List String
deriving DecidableEq, Repr

/-- The state of the output layer. -/
structure LayerState where
  name : String
  srs : Option SpatialRef
  geomType : OGRwkbGeometryType
  fields : List (String × OGRFieldType)
  features : List Feature
deriving DecidableEq, Repr

/-- Observable events of one run, in order. -/
inductive Event where
  | srsFromEpsg (code : Nat)
  | dsCreated (path : String)
  | layerCreated (name : String) (srs : Option SpatialRef)
  | fieldCreated (name : String)
  | dirListed
  | printed (line : String)
  | lasOpened (path : String)
  | featureCreated (f : Feature)
deriving DecidableEq, Repr

/-- The outcome of one run. -/
structure RunResult where
  events : List Event
  dsPath : Option String
  layer : Option LayerState
  result : Except LasBoundsError Unit
deriving DecidableEq, Repr

/-! ### The program (translated from main.rs) -/

/-- `list_las` (main.rs 88-100): iterate the directory entries, silently skip
entries that could not be read, keep the paths whose extension is exactly
"las". -/
def list_las (rd : Except IOErr (List (Except IOErr DirEntry))) :
    Except LasBoundsError (List String) :=
  match rd with
  | .error e => .error (.IOError e)
  | .ok entries =>
    .ok ((entries.filterMap (fun r =>
            match r with
            | .ok en => some en.path
            | .error _ => none)).filter
          (fun p => Path.extension p == some "las"))

/-- `read_bounds` (main.rs 102-107): open the LAS file and return the
header's bounds. -/
def read_bounds (w : World) (las : String) : Except LasBoundsError Bounds :=
  match w.lasRead las with
  | .error e => .error (.LASError e)
  | .ok b => .ok b

/-- `create_shp` (main.rs 109-114): fetch the "ESRI Shapefile" driver and
create the dataset at the given path. -/
def create_shp (w : World) (shp : String) : Except LasBoundsError Unit :=
  match w.driverGet with
  | .error e => .error (.GdalError e)
  | .ok _ =>
    match w.dsCreate shp with
    | .error e => .error (.GdalError e)
    | .ok _ => .ok ()

/-- `create_layer` (main.rs 116-126): create the polygon layer "bounds" with
the given spatial reference, then the two string fields "name" and "path".
Returns the events emitted and the layer handle. -/
def create_layer (w : World) (srs : Option SpatialRef) :
    List Event × Except LasBoundsError LayerState :=
  match w.layerCreate with
  | .error e => ([], .error (.GdalError e))
  | .ok _ =>
    match w.fieldsCreate with
    | .error e => ([Event.layerCreated "bounds" srs], .error (.GdalError e))
    | .ok _ =>
      ([Event.layerCreated "bounds" srs, Event.fieldCreated "name",
        Event.fieldCreated "path"],
       .ok { name := "bounds", srs := srs, geomType := .wkbPolygon,
             fields := [("name", .OFTString), ("path", .OFTString)],
             features := [] })

/-- `write_bounds` (main.rs 128-144): read the file's bounds, derive the file
name (a `Custom` error naming the path when that fails), then create one
feature whose geometry is the X/Y bounding-box ring and whose "name"/"path"
attributes are the file name and the full path. -/
def write_bounds (w : World) (las : String) (layer : LayerState) :
    List Event × Except LasBoundsError LayerState :=
  match read_bounds w las with
  | .error e => ([Event.lasOpened las], .error e)
  | .ok bounds =>
    let path := las
    match Path.fileName las with
    | none =>
      ([Event.lasOpened las],
       .error (.Custom ("Could not get file name: " ++ path)))
    | some filename =>
      match w.featureCreate las with
      | .error e => ([Event.lasOpened las], .error (.GdalError e))
      | .ok _ =>
        let f : Feature :=
          { ring := Geometry.bbox bounds.min.x bounds.min.y
                      bounds.max.x bounds.max.y,
            fieldNames := ["name", "path"],
            fieldValues := [filename, path] }
        ([Event.lasOpened las, Event.featureCreated f],
         .ok { layer with features := layer.features ++ [f] })

/-- The progress line printed for the file at 0-based index `i`
(main.rs 165). -/
def progressLine (i total : Nat) (p : String) : String :=
  "[" ++ toString (i + 1) ++ "/" ++ toString total ++ "] " ++ p

/-- The `for (i, p) in paths.iter().enumerate()` loop of `main`
(main.rs 164-167): print the progress line, write the file's bounds, stop at
the first error. -/
def processFiles (w : World) (total : Nat) :
    Nat → LayerState → List String →
      List Event × LayerState × Except LasBoundsError Unit
  | _, layer, [] => ([], layer, .ok ())
  | i, layer, p :: rest =>
    let line := Event.printed (progressLine i total p)
    match write_bounds w p layer with
    | (evs, .error e) => (line :: evs, layer, .error e)
    | (evs, .ok layer2) =>
      match processFiles w total (i + 1) layer2 rest with
      | (evs2, layerF, res) => (line :: (evs ++ evs2), layerF, res)

/-- The spatial-reference resolution of `main` (main.rs 155-158): parse the
optional `--epsg` value as a `u32` (silently dropping it on parse failure)
and resolve it through the backend. -/
def resolveSrs (w : World) (epsgArg : Option String) :
    Except LasBoundsError (Option SpatialRef) :=
  match epsgArg.bind parseU32 with
  | none => .ok none
  | some code =>
    match w.epsgResolve code with
    | .error e => .error (.GdalError e)
    | .ok sr => .ok (some sr)

/-- The event emitted by the spatial-reference resolution attempt. -/
def srsEvents (epsgArg : Option String) : List Event :=
  match epsgArg.bind parseU32 with
  | none => []
  | some code => [Event.srsFromEpsg code]

/-- The part of `main` after spatial-reference resolution
(main.rs 160-169): create the dataset, the layer, list the directory and
process each file. -/
def mainAfterSrs (w : World) (shpPath : String) (ev0 : List Event)
    (srs : Option SpatialRef) : RunResult :=
  match create_shp w shpPath with
  | .error e => { events := ev0, dsPath := none, layer := none,
                  result := .error e }
  | .ok _ =>
    let ev1 := ev0 ++ [Event.dsCreated shpPath]
    match create_layer w srs with
    | (evs, .error e) =>
      { events := ev1 ++ evs, dsPath := some shpPath, layer := none,
        result := .error e }
    | (evs, .ok layer0) =>
      let ev2 := ev1 ++ evs
      match list_las w.readDir with
      | .error e =>
        { events := ev2, dsPath := some shpPath, layer := some layer0,
          result := .error e }
      | .ok paths =>
        let ev3 := ev2 ++ [Event.dirListed]
        match processFiles w paths.length 0 layer0 paths with
        | (evs2, layerF, res) =>
          { events := ev3 ++ evs2, dsPath := some shpPath,
            layer := some layerF, result := res }

/-- `main` (main.rs 146-169): compute the output path from the directory by
swapping its extension to "shp", resolve the optional spatial reference,
then run the rest of the pipeline. -/
def main (w : World) (dirVal : String) (epsgArg : Option String) : RunResult :=
  let shpPath := Path.withExtension dirVal "shp"
  match resolveSrs w epsgArg with
  | .error e =>
    { events := srsEvents epsgArg, dsPath := none, layer := none,
      result := .error e }
  | .ok srs => mainAfterSrs w shpPath (srsEvents epsgArg) srs

/-! ### Specification-side observables -/

/-- The feature `write_bounds` would append for path `p`, when the file can
be read and a file name can be derived. -/
def featureOf (w : World) (p : String) : Option Feature :=
  match w.lasRead p, Path.fileName p with
  | .ok b, some n =>
    some { ring := Geometry.bbox b.min.x b.min.y b.max.x b.max.y,
           fieldNames := ["name", "path"],
           fieldValues := [n, p] }
  | _, _ => none

/-- Whether `write_bounds` succeeds for path `p`: the file reads, a file
name can be derived, and the feature call succeeds. -/
def writeOk (w : World) (p : String) : Bool :=
  (match w.lasRead p with | .ok _ => true | .error _ => false) &&
  (Path.fileName p).isSome &&
  (match w.featureCreate p with | .ok _ => true | .error _ => false)

/-- The event trace the per-file loop emits for a run of successful files:
progress line, file open, feature creation, in order, per file. -/
def runTrace (total : Nat) : Nat → List (String × Feature) → List Event
  | _, [] => []
  | i, (p, f) :: rest =>
    Event.printed (progressLine i total p) :: Event.lasOpened p ::
      Event.featureCreated f :: runTrace total (i + 1) rest

/-- The progress lines for the given paths, starting at 0-based index `i`. -/
def progressLines (total : Nat) : Nat → List String → List String
  | _, [] => []
  | i, p :: rest => progressLine i total p :: progressLines total (i + 1) rest

/-- The lines a run prints to stdout, in order. -/
def stdoutOf (evs : List Event) : List String :=
  evs.filterMap (fun e =>
    match e with
    | .printed s => some s
    | _ => none)

/-- Recognises a dataset-creation event. -/
def isDsCreatedEv (e : Event) : Bool :=
  match e with
  | .dsCreated _ => true
  | _ => false

/-- Recognises a layer-creation event. -/
def isLayerCreatedEv (e : Event) : Bool :=
  match e with
  | .layerCreated _ _ => true
  | _ => false

/-- Recognises a spatial-reference resolution event. -/
def isSrsEv (e : Event) : Bool :=
  match e with
  | .srsFromEpsg _ => true
  | _ => false

/-- Recognises the events that can occur after output creation: directory
listing, progress printing, file opening and feature creation. -/
def isStreamEvent (e : Event) : Bool :=
  match e with
  | .dirListed => true
  | .printed _ => true
  | .lasOpened _ => true
  | .featureCreated _ => true
  | _ => false

/-- The events of a run's output-creation phase. -/
def setupEvents (shpPath : String) (srs : Option SpatialRef) : List Event :=
  [Event.dsCreated shpPath, Event.layerCreated "bounds" srs,
   Event.fieldCreated "name", Event.fieldCreated "path"]

/-- The "bounds" layer with the program's fixed schema and the given
features. -/
def boundsLayer (srs : Option SpatialRef) (fs : List Feature) : LayerState :=
  { name := "bounds", srs := srs, geomType := .wkbPolygon,
    fields := [("name", .OFTString), ("path", .OFTString)],
    features := fs }

/-! ### Concrete inputs used by the witnesses -/

/-- Header bounds min=(0,0,0), max=(10,10,5). -/
def bounds0 : Bounds :=
  { min := { x := 0, y := 0, z := 0 }, max := { x := 10, y := 10, z := 5 } }

/-- The same X/Y extents as `bounds0` with different Z values. -/
def bounds1 : Bounds :=
  { min := { x := 0, y := 0, z := 3 }, max := { x := 10, y := 10, z := 7 } }

/-- An empty "bounds" layer with no spatial reference. -/
def layer0 : LayerState := boundsLayer none []

/-- The feature written for "d/a.las" with bounds `bounds0`. -/
def feat0 : Feature :=
  { ring := [(0, 0), (10, 0), (10, 10), (0, 10), (0, 0)],
    fieldNames := ["name", "path"],
    fieldValues := ["a.las", "d/a.las"] }

/-- A world where everything succeeds: directory "d" holds a matching file
"d/a.las" and a non-matching "d/b.txt". -/
def okWorld : World :=
  { readDir := .ok [.ok { path := "d/a.las", isDir := false },
                    .ok { path := "d/b.txt", isDir := false }],
    lasRead := fun _ => .ok bounds0,
    epsgResolve := fun c => .ok { epsg := c },
    driverGet := .ok (),
    dsCreate := fun _ => .ok (),
    layerCreate := .ok (),
    fieldsCreate := .ok (),
    featureCreate := fun _ => .ok () }

/-- `okWorld` with the Z coordinates of every header changed. -/
def zWorld : World := { okWorld with lasRead := fun _ => .ok bounds1 }

/-- A world with two matching files where reading the second file's header
fails with a LAS parse error. -/
def failWorld : World :=
  { okWorld with
    readDir := .ok [.ok { path := "d/a.las", isDir := false },
                    .ok { path := "d/b.las", isDir := false }],
    lasRead := fun p =>
      if p = "d/b.las" then .error { msg := "corrupt header" }
      else .ok bounds0 }

/-- A world whose spatial-reference backend rejects every EPSG code. -/
def badSrsWorld : World :=
  { okWorld with epsgResolve := fun _ => .error { msg := "unknown epsg" } }

/-- A world whose directory contains no matching file. -/
def emptyDirWorld : World :=
  { okWorld with readDir := .ok [.ok { path := "d/b.txt", isDir := false }] }

/-- A world where opening the directory itself fails. -/
def noDirWorld : World :=
  { okWorld with readDir := .error { msg := "permission denied" } }

/-! ### Lemmas about `write_bounds` -/

/-- Inversion for `featureOf`: a produced feature comes from a successful
header read and a derived file name, and has the bbox ring and the
name/path attributes. -/
theorem featureOf_inv (w : World) (p : String) (f : Feature)
    (hf : featureOf w p = some f) :
    ∃ b n, w.lasRead p = .ok b ∧ Path.fileName p = some n ∧
      f = { ring := Geometry.bbox b.min.x b.min.y b.max.x b.max.y,
            fieldNames := ["name", "path"], fieldValues := [n, p] } := by
  unfold featureOf at hf
  cases hb : w.lasRead p <;> rw [hb] at hf <;>
    cases hn : Path.fileName p <;> rw [hn] at hf <;> simp at hf
  exact ⟨_, _, rfl, rfl, hf.symm⟩

/-- When the feature is computable and the backend accepts it,
`write_bounds` emits the open/feature events and appends the feature. -/
theorem write_bounds_ok (w : World) (p : String) (L : LayerState)
    (f : Feature) (hf : featureOf w p = some f)
    (hc : w.featureCreate p = .ok ()) :
    write_bounds w p L =
      ([Event.lasOpened p, Event.featureCreated f],
       .ok { L with features := L.features ++ [f] }) := by
  obtain ⟨b, n, hb, hn, hfe⟩ := featureOf_inv w p f hf
  unfold write_bounds read_bounds
  rw [hb, hn, hc, hfe]

/-- When `writeOk` fails, `write_bounds` emits only the open event and
returns an error that does not depend on the layer. -/
theorem write_bounds_fail (w : World) (p : String)
    (hbad : writeOk w p = false) :
    ∃ e, ∀ L, write_bounds w p L = ([Event.lasOpened p], .error e) := by
  unfold writeOk at hbad
  cases hb : w.lasRead p with
  | error er =>
    exact ⟨.LASError er, fun L => by unfold write_bounds read_bounds; rw [hb]⟩
  | ok b =>
    cases hn : Path.fileName p with
    | none =>
      exact ⟨.Custom ("Could not get file name: " ++ p), fun L => by
        unfold write_bounds read_bounds; rw [hb, hn]⟩
    | some n =>
      cases hc : w.featureCreate p with
      | error er =>
        exact ⟨.GdalError er, fun L => by
          unfold write_bounds read_bounds; rw [hb, hn, hc]⟩
      | ok u =>
        rw [hb, hn, hc] at hbad
        simp at hbad

/-- A successful `write_bounds` only appends one feature; every other layer
component is unchanged. -/
theorem write_bounds_ok_shape (w : World) (p : String) (L L2 : LayerState)
    (evs : List Event) (h : write_bounds w p L = (evs, .ok L2)) :
    ∃ f, L2 = { L with features := L.features ++ [f] } ∧
      evs = [Event.lasOpened p, Event.featureCreated f] := by
  unfold write_bounds read_bounds at h
  cases hb : w.lasRead p <;> rw [hb] at h <;>
    cases hn : Path.fileName p <;> rw [hn] at h
  case ok.some =>
    cases hc : w.featureCreate p <;> rw [hc] at h <;>
      simp at h
    exact ⟨_, h.2.symm, h.1.symm⟩
  all_goals simp at h

/-- The events of `write_bounds` are the open event, possibly followed by
one feature-creation event. -/
theorem write_bounds_events (w : World) (p : String) (L : LayerState) :
    (write_bounds w p L).1 = [Event.lasOpened p] ∨
      ∃ f, (write_bounds w p L).1 =
        [Event.lasOpened p, Event.featureCreated f] := by
  unfold write_bounds read_bounds
  cases hb : w.lasRead p <;>
    cases hn : Path.fileName p <;> simp
  cases hc : w.featureCreate p <;> simp

/-! ### Lemmas about the per-file loop -/

/-- When every listed file succeeds, the loop emits the interleaved
progress/open/feature trace and appends exactly the computed features, in
listing order. -/
theorem processFiles_ok (w : World) (total : Nat) (paths : List String)
    (fs : List Feature) (i : Nat) (L : LayerState)
    (hmap : paths.map (featureOf w) = fs.map some)
    (hfc : ∀ p ∈ paths, w.featureCreate p = .ok ()) :
    processFiles w total i L paths =
      (runTrace total i (paths.zip fs),
       { L with features := L.features ++ fs }, .ok ()) := by
  induction paths generalizing fs i L with
  | nil =>
    cases fs with
    | nil => simp [processFiles, runTrace]
    | cons f fs2 => simp at hmap
  | cons p rest ih =>
    cases fs with
    | nil => simp at hmap
    | cons f fs2 =>
      simp only [List.map_cons, List.cons.injEq] at hmap
      have h1 := write_bounds_ok w p L f hmap.1 (hfc p (by simp))
      simp only [processFiles, h1]
      rw [ih fs2 (i + 1) _ hmap.2 (fun q hq => hfc q (by simp [hq]))]
      simp [runTrace, List.append_assoc, List.zip]

/-- When the files before `bad` succeed and `bad` fails, the loop emits the
trace of the successful files followed by the failing file's progress line
and open event, keeps the features written so far, and stops with the
failing file's error (the files after `bad` are never reached). -/
theorem processFiles_fail (w : World) (total : Nat) (preP : List String)
    (bad : String) (suf : List String) (fs : List Feature)
    (e : LasBoundsError) (i : Nat) (L : LayerState)
    (hmap : preP.map (featureOf w) = fs.map some)
    (hfc : ∀ p ∈ preP, w.featureCreate p = .ok ())
    (hbad : ∀ L2, write_bounds w bad L2 = ([Event.lasOpened bad], .error e)) :
    processFiles w total i L (preP ++ bad :: suf) =
      (runTrace total i (preP.zip fs) ++
         [Event.printed (progressLine (i + preP.length) total bad),
          Event.lasOpened bad],
       { L with features := L.features ++ fs }, .error e) := by
  induction preP generalizing fs i L with
  | nil =>
    cases fs with
    | nil =>
      simp only [List.nil_append, processFiles, hbad]
      simp [runTrace]
    | cons f fs2 => simp at hmap
  | cons p rest ih =>
    cases fs with
    | nil => simp at hmap
    | cons f fs2 =>
      simp only [List.map_cons, List.cons.injEq] at hmap
      have h1 := write_bounds_ok w p L f hmap.1 (hfc p (by simp))
      simp only [List.cons_append, processFiles, h1, List.append_eq]
      rw [ih fs2 (i + 1) _ hmap.2 (fun q hq => hfc q (by simp [hq]))]
      simp [runTrace, List.append_assoc, List.zip, Nat.add_comm,
        Nat.add_left_comm, Nat.add_assoc]

/-- The loop never changes the layer's name, spatial reference, geometry
type or field schema. -/
theorem processFiles_preserves (w : World) (total : Nat)
    (paths : List String) :
    ∀ (i : Nat) (L : LayerState),
      ((processFiles w total i L paths).2.1).name = L.name ∧
      ((processFiles w total i L paths).2.1).srs = L.srs ∧
      ((processFiles w total i L paths).2.1).geomType = L.geomType ∧
      ((processFiles w total i L paths).2.1).fields = L.fields := by
  induction paths with
  | nil => intro i L; simp [processFiles]
  | cons p rest ih =>
    intro i L
    simp only [processFiles]
    cases hwb : write_bounds w p L with
    | mk evs r =>
      cases r with
      | error e => simp
      | ok L2 =>
        obtain ⟨f, hL2, -⟩ := write_bounds_ok_shape w p L L2 evs hwb
        subst hL2
        simpa using ih (i + 1) { L with features := L.features ++ [f] }

/-- Every event the loop emits is a stream event. -/
theorem processFiles_stream (w : World) (total : Nat) (paths : List String) :
    ∀ (i : Nat) (L : LayerState),
      ∀ e ∈ (processFiles w total i L paths).1, isStreamEvent e = true := by
  induction paths with
  | nil => intro i L e he; simp [processFiles] at he
  | cons p rest ih =>
    intro i L e he
    simp only [processFiles] at he
    cases hwb : write_bounds w p L with
    | mk evs r =>
      have hevs : evs = [Event.lasOpened p] ∨
          ∃ f, evs = [Event.lasOpened p, Event.featureCreated f] := by
        have h3 := write_bounds_events w p L
        rw [hwb] at h3
        exact h3
      have hein : e = Event.printed (progressLine i total p) ∨ e ∈ evs ∨
          (∃ L2, r = Except.ok L2 ∧
            e ∈ (processFiles w total (i + 1) L2 rest).1) := by
        rw [hwb] at he
        cases r with
        | error er => simp at he; tauto
        | ok L2 =>
          simp at he
          rcases he with he | he | he
          · exact Or.inl he
          · exact Or.inr (Or.inl he)
          · exact Or.inr (Or.inr ⟨L2, rfl, he⟩)
      rcases hein with he2 | he2 | ⟨L2, -, he2⟩
      · simp [he2, isStreamEvent]
      · rcases hevs with h4 | ⟨f, h4⟩ <;> subst h4 <;> simp at he2
        · simp [he2, isStreamEvent]
        · rcases he2 with he2 | he2 <;> simp [he2, isStreamEvent]
      · exact ih (i + 1) L2 e he2

/-! ### Lemmas about traces -/

theorem stdoutOf_append (a b : List Event) :
    stdoutOf (a ++ b) = stdoutOf a ++ stdoutOf b := by
  simp [stdoutOf, List.filterMap_append]

/-- The stdout of the loop trace is exactly the progress lines of the
processed paths, in order. -/
theorem stdoutOf_runTrace (total : Nat) (l : List (String × Feature)) :
    ∀ i, stdoutOf (runTrace total i l) =
      progressLines total i (l.map Prod.fst) := by
  induction l with
  | nil => intro i; simp [runTrace, progressLines, stdoutOf]
  | cons pf rest ih =>
    intro i
    cases pf with
    | mk p f =>
      simp only [runTrace, stdoutOf, List.filterMap_cons] at ih ⊢
      simp [progressLines, ih]

/-- The loop trace contains no event counted by a predicate that rejects
progress, open and feature events. -/
theorem runTrace_countP (q : Event → Bool)
    (hp : ∀ s, q (Event.printed s) = false)
    (ho : ∀ p, q (Event.lasOpened p) = false)
    (hf : ∀ f, q (Event.featureCreated f) = false)
    (total : Nat) (l : List (String × Feature)) :
    ∀ i, (runTrace total i l).countP q = 0 := by
  induction l with
  | nil => intro i; simp [runTrace]
  | cons pf rest ih =>
    intro i
    cases pf with
    | mk p f => simp [runTrace, List.countP_cons, hp, ho, hf, ih]

/-- Every open event in the loop trace names a processed path. -/
theorem runTrace_lasOpened (total : Nat) (l : List (String × Feature)) :
    ∀ i p, Event.lasOpened p ∈ runTrace total i l → p ∈ l.map Prod.fst := by
  induction l with
  | nil => intro i p h; simp [runTrace] at h
  | cons pf rest ih =>
    intro i p h
    cases pf with
    | mk q f =>
      simp only [runTrace, List.mem_cons] at h
      rcases h with h | h | h | h
      · exact absurd h (by simp)
      · simp at h; simp [h]
      · exact absurd h (by simp)
      · simpa using Or.inr (ih (i + 1) p h)

/-! ### Lemmas about `main` -/

theorem create_shp_ok (w : World) (shp : String)
    (hdrv : w.driverGet = .ok ()) (hds : w.dsCreate shp = .ok ()) :
    create_shp w shp = .ok () := by
  unfold create_shp
  rw [hdrv, hds]

theorem create_layer_ok (w : World) (srs : Option SpatialRef)
    (hly : w.layerCreate = .ok ()) (hfl : w.fieldsCreate = .ok ()) :
    create_layer w srs =
      ([Event.layerCreated "bounds" srs, Event.fieldCreated "name",
        Event.fieldCreated "path"], .ok (boundsLayer srs [])) := by
  unfold create_layer boundsLayer
  rw [hly, hfl]

/-- A successfully created layer always has the fixed "bounds" schema and
the requested spatial reference. -/
theorem create_layer_ok_shape (w : World) (srs : Option SpatialRef)
    (evs : List Event) (L0 : LayerState)
    (h : create_layer w srs = (evs, .ok L0)) : L0 = boundsLayer srs [] := by
  unfold create_layer at h
  cases hly : w.layerCreate <;> rw [hly] at h <;>
    cases hfl : w.fieldsCreate <;> try rw [hfl] at h
  all_goals simp at h
  simp [boundsLayer, h.2.symm]

/-- Master success lemma: under a resolvable spatial reference, working
output backend, readable directory and per-file success, the run emits the
full trace, creates the dataset at the directory path with extension
swapped to "shp", and ends with the "bounds" layer holding exactly the
computed features, in listing order. -/
theorem main_ok_spec (w : World) (dirVal : String) (epsgArg : Option String)
    (srs : Option SpatialRef) (paths : List String) (fs : List Feature)
    (hsrs : resolveSrs w epsgArg = .ok srs)
    (hdrv : w.driverGet = .ok ())
    (hds : w.dsCreate (Path.withExtension dirVal "shp") = .ok ())
    (hly : w.layerCreate = .ok ()) (hfl : w.fieldsCreate = .ok ())
    (hdir : list_las w.readDir = .ok paths)
    (hmap : paths.map (featureOf w) = fs.map some)
    (hfc : ∀ p ∈ paths, w.featureCreate p = .ok ()) :
    main w dirVal epsgArg =
      { events := srsEvents epsgArg ++
          setupEvents (Path.withExtension dirVal "shp") srs ++
          [Event.dirListed] ++ runTrace paths.length 0 (paths.zip fs),
        dsPath := some (Path.withExtension dirVal "shp"),
        layer := some (boundsLayer srs fs),
        result := .ok () } := by
  simp only [main, hsrs]
  simp only [mainAfterSrs, create_shp_ok w _ hdrv hds,
    create_layer_ok w srs hly hfl, hdir]
  rw [processFiles_ok w paths.length paths fs 0 (boundsLayer srs []) hmap hfc]
  simp [setupEvents, boundsLayer, List.append_assoc]

/-- Master failure lemma: when the files before `bad` succeed and `bad`
fails, the run keeps the features written so far, prints the progress lines
up to and including `bad`, opens no file after `bad`, and ends with the
failing file's error. -/
theorem main_fail_spec (w : World) (dirVal : String) (epsgArg : Option String)
    (srs : Option SpatialRef) (preP : List String) (bad : String)
    (suf : List String) (fs : List Feature)
    (hsrs : resolveSrs w epsgArg = .ok srs)
    (hdrv : w.driverGet = .ok ())
    (hds : w.dsCreate (Path.withExtension dirVal "shp") = .ok ())
    (hly : w.layerCreate = .ok ()) (hfl : w.fieldsCreate = .ok ())
    (hdir : list_las w.readDir = .ok (preP ++ bad :: suf))
    (hmap : preP.map (featureOf w) = fs.map some)
    (hfc : ∀ p ∈ preP, w.featureCreate p = .ok ())
    (hbad : writeOk w bad = false) :
    ∃ e, main w dirVal epsgArg =
      { events := srsEvents epsgArg ++
          setupEvents (Path.withExtension dirVal "shp") srs ++
          [Event.dirListed] ++
          runTrace (preP ++ bad :: suf).length 0 (preP.zip fs) ++
          [Event.printed
             (progressLine preP.length (preP ++ bad :: suf).length bad),
           Event.lasOpened bad],
        dsPath := some (Path.withExtension dirVal "shp"),
        layer := some (boundsLayer srs fs),
        result := .error e } := by
  obtain ⟨e, he⟩ := write_bounds_fail w bad hbad
  refine ⟨e, ?_⟩
  simp only [main, hsrs]
  simp only [mainAfterSrs, create_shp_ok w _ hdrv hds,
    create_layer_ok w srs hly hfl, hdir]
  rw [processFiles_fail w (preP ++ bad :: suf).length preP bad suf fs e 0
    (boundsLayer srs []) hmap hfc he]
  simp [setupEvents, boundsLayer, List.append_assoc]

/-- The events of `create_layer` are a prefix of layer creation followed by
the two field creations. -/
theorem create_layer_events (w : World) (srs : Option SpatialRef) :
    (create_layer w srs).1 = [] ∨
    (create_layer w srs).1 = [Event.layerCreated "bounds" srs] ∨
    (create_layer w srs).1 = [Event.layerCreated "bounds" srs,
      Event.fieldCreated "name", Event.fieldCreated "path"] := by
  unfold create_layer
  cases w.layerCreate <;> cases w.fieldsCreate <;> simp

/-- The spatial reference is attached before `mainAfterSrs` runs: the
pipeline after resolution never emits a resolution event. -/
theorem mainAfterSrs_events_shape (w : World) (shp : String)
    (ev0 : List Event) (srs : Option SpatialRef) :
    ∃ rest, (mainAfterSrs w shp ev0 srs).events = ev0 ++ rest ∧
      rest.countP isSrsEv = 0 := by
  unfold mainAfterSrs
  cases hcs : create_shp w shp with
  | error e => exact ⟨[], by simp, rfl⟩
  | ok u =>
    cases hcl : create_layer w srs with
    | mk evs r =>
      have hevc : evs.countP isSrsEv = 0 := by
        rcases create_layer_events w srs with h | h | h <;>
          rw [hcl] at h <;> simp at h <;>
            simp [h, isSrsEv, List.countP_cons]
      cases r with
      | error e =>
        exact ⟨[Event.dsCreated shp] ++ evs, by simp [List.append_assoc],
          by simp [List.countP_append, List.countP_cons, hevc, isSrsEv]⟩
      | ok L0 =>
        cases hll : list_las w.readDir with
        | error e2 =>
          exact ⟨[Event.dsCreated shp] ++ evs, by simp [List.append_assoc],
            by simp [List.countP_append, List.countP_cons, hevc, isSrsEv]⟩
        | ok paths =>
          cases hpf : processFiles w paths.length 0 L0 paths with
          | mk evs2 r2 =>
            cases r2 with
            | mk layerF res =>
              have hstream : evs2.countP isSrsEv = 0 := by
                rw [List.countP_eq_zero]
                intro e2 he2
                have hs := processFiles_stream w paths.length paths 0 L0 e2
                  (by rw [hpf]; exact he2)
                cases e2 <;> simp_all [isStreamEvent, isSrsEv]
              refine ⟨[Event.dsCreated shp] ++ evs ++ [Event.dirListed] ++
                evs2, by simp [hpf, List.append_assoc], ?_⟩
              simp [List.countP_append, List.countP_cons, hevc, hstream,
                isSrsEv]

/-- Under a working output backend, the run's events start with the
dataset, layer and field creations, everything after is stream traffic, and
the dataset path is recorded, whatever the directory listing and file reads
do. -/
theorem mainAfterSrs_setup_ok_shape (w : World) (shp : String)
    (ev0 : List Event) (srs : Option SpatialRef)
    (hdrv : w.driverGet = .ok ()) (hds : w.dsCreate shp = .ok ())
    (hly : w.layerCreate = .ok ()) (hfl : w.fieldsCreate = .ok ()) :
    ∃ rest, (mainAfterSrs w shp ev0 srs).events =
        ev0 ++ setupEvents shp srs ++ rest ∧
      (∀ e ∈ rest, isStreamEvent e = true) ∧
      (mainAfterSrs w shp ev0 srs).dsPath = some shp := by
  unfold mainAfterSrs
  rw [create_shp_ok w shp hdrv hds, create_layer_ok w srs hly hfl]
  cases hll : list_las w.readDir with
  | error e =>
    refine ⟨[], ?_, by simp, by simp⟩
    simp [setupEvents, List.append_assoc]
  | ok paths =>
    cases hpf : processFiles w paths.length 0 (boundsLayer srs []) paths with
    | mk evs2 r2 =>
      cases r2 with
      | mk layerF res =>
        refine ⟨Event.dirListed :: evs2, ?_, ?_, by simp⟩
        · simp [hpf, setupEvents, List.append_assoc]
        · intro e he
          rcases List.mem_cons.mp he with he | he
          · simp [he, isStreamEvent]
          · have hs := processFiles_stream w paths.length paths 0
              (boundsLayer srs []) e (by rw [hpf]; exact he)
            exact hs

/-- Whenever the run ends holding a layer, that layer is the "bounds" layer
with the requested spatial reference and the fixed two-field schema. -/
theorem mainAfterSrs_layer (w : World) (shp : String) (ev0 : List Event)
    (srs : Option SpatialRef) (L : LayerState)
    (h : (mainAfterSrs w shp ev0 srs).layer = some L) :
    L.name = "bounds" ∧ L.srs = srs ∧ L.geomType = .wkbPolygon ∧
      L.fields = [("name", OGRFieldType.OFTString),
                  ("path", OGRFieldType.OFTString)] := by
  unfold mainAfterSrs at h
  cases hcs : create_shp w shp <;> rw [hcs] at h
  case error e => simp at h
  case ok u =>
    cases hcl : create_layer w srs with
    | mk evs r =>
      rw [hcl] at h
      cases r with
      | error e => simp at h
      | ok L0 =>
        have hL0 := create_layer_ok_shape w srs evs L0 hcl
        subst hL0
        cases hll : list_las w.readDir with
        | error e2 =>
          rw [hll] at h
          simp at h
          simp [← h, boundsLayer]
        | ok paths =>
          rw [hll] at h
          cases hpf : processFiles w paths.length 0 (boundsLayer srs [])
              paths with
          | mk evs2 r2 =>
            cases r2 with
            | mk layerF res =>
              have hp := processFiles_preserves w paths.length paths 0
                (boundsLayer srs [])
              rw [hpf] at hp
              simp [hpf] at h
              simp only [← h]
              simpa [boundsLayer] using hp

/-- The resolution-attempt events: empty, or one resolution event. -/
theorem srsEvents_shape (epsgArg : Option String) :
    srsEvents epsgArg = [] ∨
      ∃ c, srsEvents epsgArg = [Event.srsFromEpsg c] := by
  unfold srsEvents
  cases epsgArg.bind parseU32 <;> simp

theorem stdoutOf_srsEvents (epsgArg : Option String) :
    stdoutOf (srsEvents epsgArg) = [] := by
  rcases srsEvents_shape epsgArg with h | ⟨c, h⟩ <;> simp [h, stdoutOf]

theorem srsEvents_countP (epsgArg : Option String) (q : Event → Bool)
    (h : ∀ c, q (Event.srsFromEpsg c) = false) :
    (srsEvents epsgArg).countP q = 0 := by
  rcases srsEvents_shape epsgArg with h2 | ⟨c, h2⟩ <;>
    simp [h2, List.countP_cons, h]

theorem progressLines_append (total : Nat) (a b : List String) :
    ∀ i, progressLines total i (a ++ b) =
      progressLines total i a ++ progressLines total (i + a.length) b := by
  induction a with
  | nil => intro i; simp [progressLines]
  | cons p rest ih =>
    intro i
    simp [progressLines, ih (i + 1), Nat.add_comm, Nat.add_left_comm,
      Nat.add_assoc]

/-- Pointwise relation transfer from an option-valued map equation. -/
theorem forall2_of_map_some {α β : Type} (g : α → Option β)
    (R : α → β → Prop) (hg : ∀ a b, g a = some b → R a b) :
    ∀ (l : List α) (m : List β), l.map g = m.map some →
      List.Forall₂ R l m := by
  intro l
  induction l with
  | nil =>
    intro m h
    cases m with
    | nil => exact List.Forall₂.nil
    | cons b m2 => simp at h
  | cons a l2 ih =>
    intro m h
    cases m with
    | nil => simp at h
    | cons b m2 =>
      simp only [List.map_cons, List.cons.injEq] at h
      exact List.Forall₂.cons (hg a b h.1) (ih m2 h.2)

theorem length_eq_of_map_some {α β : Type} (g : α → Option β) (l : List α)
    (m : List β) (h : l.map g = m.map some) : l.length = m.length := by
  have h2 := congrArg List.length h
  simpa using h2

/-! ### The claims -/

/-- Claim C1: for every bounding box (minX,minY,maxX,maxY) passed to the
polygon constructor, the resulting geometry is a closed rectangular ring of
exactly 5 vertices whose first and last vertices are identical, whose 4
distinct corners are exactly the combinations of the two input coordinate
pairs, in the winding order (minX,minY), (maxX,minY), (maxX,maxY),
(minX,maxY), (minX,minY); and the Z coordinates of the source bounds are
not encoded in the polygon geometry: two `write_bounds` runs whose header
bounds differ only in their Z coordinates produce identical output. -/
theorem claim_C1 (minX minY maxX maxY z1 z2 z3 z4 : Int) (w wz : World)
    (las : String) (L : LayerState)
    (hw : w.lasRead las = .ok { min := { x := minX, y := minY, z := z1 },
                                max := { x := maxX, y := maxY, z := z2 } })
    (hwz : wz.lasRead las = .ok { min := { x := minX, y := minY, z := z3 },
                                  max := { x := maxX, y := maxY, z := z4 } })
    (hfc : wz.featureCreate = w.featureCreate) :
    Geometry.bbox minX minY maxX maxY =
      [(minX, minY), (maxX, minY), (maxX, maxY), (minX, maxY),
       (minX, minY)] ∧
    (Geometry.bbox minX minY maxX maxY).length = 5 ∧
    (Geometry.bbox minX minY maxX maxY).head? =
      (Geometry.bbox minX minY maxX maxY).getLast? ∧
    write_bounds wz las L = write_bounds w las L := by
  refine ⟨rfl, rfl, by simp [Geometry.bbox], ?_⟩
  unfold write_bounds read_bounds
  rw [hw, hwz, hfc]

/-- Witness for C1 at the box (0,0,10,10), comparing a run whose Z extent
is 0..5 with one whose Z extent is 3..7. -/
theorem claim_C1_witness :
    Geometry.bbox 0 0 10 10 =
      [(0, 0), (10, 0), (10, 10), (0, 10), (0, 0)] ∧
    (Geometry.bbox 0 0 10 10).length = 5 ∧
    (Geometry.bbox 0 0 10 10).head? = (Geometry.bbox 0 0 10 10).getLast? ∧
    write_bounds zWorld "d/a.las" layer0 =
      write_bounds okWorld "d/a.las" layer0 :=
  claim_C1 0 0 10 10 0 5 3 7 okWorld zWorld "d/a.las" layer0 rfl rfl rfl

/-- Claim C2 counterexample: the scanner selects entries by extension only
and never checks whether an entry is a directory, so a subdirectory named
"d/sub.las" is returned even though the claim says directories are
excluded (a directory with zero matching files should yield the empty
list). -/
theorem claim_C2_counterexample :
    list_las (.ok [.ok { path := "d/sub.las", isDir := true }]) =
      .ok ["d/sub.las"] ∧
    list_las (.ok [.ok { path := "d/sub.las", isDir := true }]) ≠
      .ok ([] : List String) := by
  constructor
  · decide
  · decide

/-- Claim C2 as amended: the scanner returns exactly the entries whose path
has extension "las", whether they are files or directories; unreadable
entries are silently skipped and there is no recursion (only the given
entries are consulted). -/
theorem claim_C2 (entries : List (Except IOErr DirEntry)) :
    ∃ out : List String,
      list_las (.ok entries) = .ok out ∧
      ∀ p, p ∈ out ↔ ∃ en : DirEntry, Except.ok en ∈ entries ∧
        en.path = p ∧ Path.extension p = some "las" := by
  refine ⟨_, rfl, ?_⟩
  intro p
  simp only [List.mem_filter, List.mem_filterMap, beq_iff_eq]
  constructor
  · rintro ⟨⟨r, hr, hg⟩, hq⟩
    cases r with
    | ok en =>
      simp at hg
      exact ⟨en, hr, hg, hq⟩
    | error err => simp at hg
  · rintro ⟨en, hen, hp2, hext⟩
    exact ⟨⟨Except.ok en, hen, by simp [hp2]⟩, hext⟩

/-- Claim C7: a readable directory with zero matching files yields a
successful run with the dataset created and the "bounds" layer holding
zero features. -/
theorem claim_C7 (w : World) (dirVal : String) (epsgArg : Option String)
    (srs : Option SpatialRef)
    (hsrs : resolveSrs w epsgArg = .ok srs)
    (hdrv : w.driverGet = .ok ())
    (hds : w.dsCreate (Path.withExtension dirVal "shp") = .ok ())
    (hly : w.layerCreate = .ok ()) (hfl : w.fieldsCreate = .ok ())
    (hdir : list_las w.readDir = .ok []) :
    (main w dirVal epsgArg).result = .ok () ∧
    (main w dirVal epsgArg).dsPath =
      some (Path.withExtension dirVal "shp") ∧
    (main w dirVal epsgArg).layer = some (boundsLayer srs []) := by
  have hm := main_ok_spec w dirVal epsgArg srs [] [] hsrs hdrv hds hly hfl
    hdir rfl (by simp)
  rw [hm]
  exact ⟨rfl, rfl, rfl⟩

/-- Witness for C7: a directory with only "d/b.txt". -/
theorem claim_C7_witness :
    (main emptyDirWorld "d" none).result = .ok () ∧
    (main emptyDirWorld "d" none).dsPath =
      some (Path.withExtension "d" "shp") ∧
    (main emptyDirWorld "d" none).layer = some (boundsLayer none []) :=
  claim_C7 emptyDirWorld "d" none none rfl rfl rfl rfl rfl (by decide)

/-- Claim C8: every program error is one of the four kinds GdalError,
IOError, LASError or Custom, and when a file name cannot be derived from an
input path (whose header read succeeded), `write_bounds` fails with the
Custom kind carrying a message naming the path. -/
theorem claim_C8 :
    (∀ e : LasBoundsError,
      (∃ g, e = .GdalError g) ∨ (∃ ioe, e = .IOError ioe) ∨
      (∃ l, e = .LASError l) ∨ (∃ s, e = .Custom s)) ∧
    (∀ (w : World) (las : String) (L : LayerState) (b : Bounds),
      w.lasRead las = .ok b → Path.fileName las = none →
      (write_bounds w las L).2 =
        .error (.Custom ("Could not get file name: " ++ las))) := by
  constructor
  · intro e
    cases e with
    | GdalError g => exact Or.inl ⟨g, rfl⟩
    | IOError e2 => exact Or.inr (Or.inl ⟨e2, rfl⟩)
    | LASError l => exact Or.inr (Or.inr (Or.inl ⟨l, rfl⟩))
    | Custom s => exact Or.inr (Or.inr (Or.inr ⟨s, rfl⟩))
  · intro w las L b hb hn
    unfold write_bounds read_bounds
    rw [hb, hn]

/-- Witness for C8 at the path "..", from which no file name can be
derived. -/
theorem claim_C8_witness :
    okWorld.lasRead ".." = .ok bounds0 ∧ Path.fileName ".." = none ∧
    (write_bounds okWorld ".." layer0).2 =
      .error (.Custom ("Could not get file name: " ++ "..")) :=
  ⟨rfl, by decide, claim_C8.2 okWorld ".." layer0 bounds0 rfl (by decide)⟩

/-- Claim C3: a successful directory-aggregate run creates exactly one
dataset, at the directory path with its extension swapped to "shp",
containing a single polygon layer "bounds" created once with exactly the
two string fields "name" and "path", and appends one feature per input
file whose "name" attribute is the input's base file name and whose "path"
attribute is the input's full source path. -/
theorem claim_C3 (w : World) (dirVal : String) (epsgArg : Option String)
    (srs : Option SpatialRef) (paths : List String) (fs : List Feature)
    (hsrs : resolveSrs w epsgArg = .ok srs)
    (hdrv : w.driverGet = .ok ())
    (hds : w.dsCreate (Path.withExtension dirVal "shp") = .ok ())
    (hly : w.layerCreate = .ok ()) (hfl : w.fieldsCreate = .ok ())
    (hdir : list_las w.readDir = .ok paths)
    (hmap : paths.map (featureOf w) = fs.map some)
    (hfc : ∀ p ∈ paths, w.featureCreate p = .ok ()) :
    (main w dirVal epsgArg).result = .ok () ∧
    (main w dirVal epsgArg).dsPath =
      some (Path.withExtension dirVal "shp") ∧
    (main w dirVal epsgArg).events.countP isDsCreatedEv = 1 ∧
    (main w dirVal epsgArg).events.countP isLayerCreatedEv = 1 ∧
    (main w dirVal epsgArg).layer = some (boundsLayer srs fs) ∧
    List.Forall₂ (fun p f => ∃ n, Path.fileName p = some n ∧
        f.fieldNames = ["name", "path"] ∧ f.fieldValues = [n, p])
      paths fs := by
  have hm := main_ok_spec w dirVal epsgArg srs paths fs hsrs hdrv hds hly
    hfl hdir hmap hfc
  rw [hm]
  refine ⟨rfl, rfl, ?_, ?_, rfl, ?_⟩
  · rw [List.countP_append, List.countP_append, List.countP_append]
    rw [srsEvents_countP epsgArg isDsCreatedEv (fun c => rfl)]
    rw [runTrace_countP isDsCreatedEv (fun s => rfl) (fun p => rfl)
      (fun f => rfl) paths.length (paths.zip fs) 0]
    simp [setupEvents, List.countP_cons, isDsCreatedEv]
  · rw [List.countP_append, List.countP_append, List.countP_append]
    rw [srsEvents_countP epsgArg isLayerCreatedEv (fun c => rfl)]
    rw [runTrace_countP isLayerCreatedEv (fun s => rfl) (fun p => rfl)
      (fun f => rfl) paths.length (paths.zip fs) 0]
    simp [setupEvents, List.countP_cons, isLayerCreatedEv]
  · refine forall2_of_map_some (featureOf w) _ ?_ paths fs hmap
    intro p f hf
    obtain ⟨b, n, -, hn, hfe⟩ := featureOf_inv w p f hf
    exact ⟨n, hn, by rw [hfe], by rw [hfe]⟩

/-- Witness for C3: the one-file directory "d". -/
theorem claim_C3_witness :
    (main okWorld "d" none).result = .ok () ∧
    (main okWorld "d" none).dsPath = some (Path.withExtension "d" "shp") ∧
    (main okWorld "d" none).layer = some (boundsLayer none [feat0]) := by
  have h := claim_C3 okWorld "d" none none ["d/a.las"] [feat0] rfl rfl rfl
    rfl rfl (by decide) (by decide) (fun p hp => rfl)
  exact ⟨h.1, h.2.1, h.2.2.2.2.1⟩

/-- Claim C4: a successful run appends exactly one feature per listed
file, in listing order, and prints exactly the progress lines
"[index/total] path", each line emitted before the corresponding file is
opened and its feature written (the full event trace interleaves printed,
open and feature events per file). -/
theorem claim_C4 (w : World) (dirVal : String) (epsgArg : Option String)
    (srs : Option SpatialRef) (paths : List String) (fs : List Feature)
    (hsrs : resolveSrs w epsgArg = .ok srs)
    (hdrv : w.driverGet = .ok ())
    (hds : w.dsCreate (Path.withExtension dirVal "shp") = .ok ())
    (hly : w.layerCreate = .ok ()) (hfl : w.fieldsCreate = .ok ())
    (hdir : list_las w.readDir = .ok paths)
    (hmap : paths.map (featureOf w) = fs.map some)
    (hfc : ∀ p ∈ paths, w.featureCreate p = .ok ()) :
    (main w dirVal epsgArg).result = .ok () ∧
    (main w dirVal epsgArg).events =
      srsEvents epsgArg ++
        setupEvents (Path.withExtension dirVal "shp") srs ++
        [Event.dirListed] ++ runTrace paths.length 0 (paths.zip fs) ∧
    stdoutOf (main w dirVal epsgArg).events =
      progressLines paths.length 0 paths ∧
    (main w dirVal epsgArg).layer = some (boundsLayer srs fs) ∧
    fs.length = paths.length := by
  have hm := main_ok_spec w dirVal epsgArg srs paths fs hsrs hdrv hds hly
    hfl hdir hmap hfc
  have hlen : paths.length = fs.length :=
    length_eq_of_map_some (featureOf w) paths fs hmap
  rw [hm]
  refine ⟨rfl, rfl, ?_, rfl, hlen.symm⟩
  rw [stdoutOf_append, stdoutOf_append, stdoutOf_append]
  rw [stdoutOf_runTrace, stdoutOf_srsEvents,
    List.map_fst_zip paths fs (le_of_eq hlen)]
  simp [stdoutOf, setupEvents]

/-- Witness for C4: the one-file directory "d". -/
theorem claim_C4_witness :
    (main okWorld "d" none).result = .ok () ∧
    stdoutOf (main okWorld "d" none).events =
      progressLines 1 0 ["d/a.las"] := by
  have h := claim_C4 okWorld "d" none none ["d/a.las"] [feat0] rfl rfl rfl
    rfl rfl (by decide) (by decide) (fun p hp => rfl)
  exact ⟨h.1, h.2.2.1⟩

/-- Claim C5: errors propagate with no local recovery; when the files
before `bad` succeed and processing `bad` fails (header parse failure,
underivable file name, or feature-creation failure), the run ends in an
error, the features of the earlier files are kept in the layer, the
progress lines stop at the failing file, and no file after the failing one
is opened. -/
theorem claim_C5 (w : World) (dirVal : String) (epsgArg : Option String)
    (srs : Option SpatialRef) (preP : List String) (bad : String)
    (suf : List String) (fs : List Feature)
    (hsrs : resolveSrs w epsgArg = .ok srs)
    (hdrv : w.driverGet = .ok ())
    (hds : w.dsCreate (Path.withExtension dirVal "shp") = .ok ())
    (hly : w.layerCreate = .ok ()) (hfl : w.fieldsCreate = .ok ())
    (hdir : list_las w.readDir = .ok (preP ++ bad :: suf))
    (hmap : preP.map (featureOf w) = fs.map some)
    (hfc : ∀ p ∈ preP, w.featureCreate p = .ok ())
    (hbad : writeOk w bad = false) :
    ∃ e, (main w dirVal epsgArg).result = .error e ∧
      (main w dirVal epsgArg).layer = some (boundsLayer srs fs) ∧
      fs.length = preP.length ∧
      stdoutOf (main w dirVal epsgArg).events =
        progressLines (preP ++ bad :: suf).length 0 (preP ++ [bad]) ∧
      ∀ p, Event.lasOpened p ∈ (main w dirVal epsgArg).events →
        p ∈ preP ++ [bad] := by
  obtain ⟨e, hm⟩ := main_fail_spec w dirVal epsgArg srs preP bad suf fs
    hsrs hdrv hds hly hfl hdir hmap hfc hbad
  have hlen : preP.length = fs.length :=
    length_eq_of_map_some (featureOf w) preP fs hmap
  have hzipfst : (preP.zip fs).map Prod.fst = preP :=
    List.map_fst_zip preP fs (le_of_eq hlen)
  refine ⟨e, ?_, ?_, hlen.symm, ?_, ?_⟩
  · rw [hm]
  · rw [hm]
  · rw [hm]
    rw [stdoutOf_append, stdoutOf_append, stdoutOf_append, stdoutOf_append]
    rw [stdoutOf_runTrace, stdoutOf_srsEvents, hzipfst]
    rw [progressLines_append (preP ++ bad :: suf).length preP [bad] 0]
    simp [stdoutOf, setupEvents, progressLines]
  · intro p hp
    rw [hm] at hp
    have hru : ∀ (tot : Nat) (q : String),
        Event.lasOpened q ∈ runTrace tot 0 (preP.zip fs) → q ∈ preP := by
      intro tot q hq
      have hmem := runTrace_lasOpened tot (preP.zip fs) 0 q hq
      rwa [hzipfst] at hmem
    rcases srsEvents_shape epsgArg with h0 | ⟨c, h0⟩ <;>
      simp only [h0, setupEvents] at hp <;> simp at hp <;>
      rcases hp with hp | hp <;>
      first
        | exact List.mem_append_left [bad] (hru _ p hp)
        | simp [hp]

/-- Witness for C5: two matching files where the second file's header read
fails. -/
theorem claim_C5_witness :
    ∃ e, (main failWorld "d" none).result = .error e ∧
      (main failWorld "d" none).layer = some (boundsLayer none [feat0]) := by
  obtain ⟨e, h1, h2, -, -, -⟩ := claim_C5 failWorld "d" none none
    ["d/a.las"] "d/b.las" [] [feat0] rfl rfl rfl rfl rfl (by decide)
    (by decide) (fun p hp => rfl) (by decide)
  exact ⟨e, h1, h2⟩

/-- Claim C6: a supplied EPSG code that parses is resolved exactly once at
startup, before any output artifact: on backend failure the run aborts with
only the resolution attempt in its trace, no dataset path and no layer; on
success the trace starts with the single resolution event and any resulting
layer carries that spatial reference; with no EPSG code supplied, any
resulting layer has no spatial reference. -/
theorem claim_C6 (w : World) (dirVal s : String) (code : Nat)
    (hp : parseU32 s = some code) :
    (∀ e, w.epsgResolve code = .error e →
      main w dirVal (some s) =
        { events := [Event.srsFromEpsg code], dsPath := none, layer := none,
          result := .error (.GdalError e) }) ∧
    (∀ sr, w.epsgResolve code = .ok sr →
      (main w dirVal (some s)).events.countP isSrsEv = 1 ∧
      (main w dirVal (some s)).events.head? =
        some (Event.srsFromEpsg code) ∧
      ∀ L, (main w dirVal (some s)).layer = some L → L.srs = some sr) ∧
    (∀ L, (main w dirVal none).layer = some L → L.srs = none) := by
  have hb : (some s).bind parseU32 = some code := hp
  have hbn : (none : Option String).bind parseU32 = none := rfl
  have hse : srsEvents (some s) = [Event.srsFromEpsg code] := by
    unfold srsEvents
    rw [hb]
  refine ⟨?_, ?_, ?_⟩
  · intro e hres
    unfold main resolveSrs
    simp only [hb, hres, hse]
  · intro sr hres
    have hres2 : resolveSrs w (some s) = .ok (some sr) := by
      unfold resolveSrs
      simp only [hb, hres]
    have hmm : main w dirVal (some s) =
        mainAfterSrs w (Path.withExtension dirVal "shp")
          [Event.srsFromEpsg code] (some sr) := by
      simp only [main, hres2, hse]
    obtain ⟨rest, hre, hrc⟩ := mainAfterSrs_events_shape w
      (Path.withExtension dirVal "shp") [Event.srsFromEpsg code] (some sr)
    refine ⟨?_, ?_, ?_⟩
    · rw [hmm, hre]
      simp [List.countP_append, List.countP_cons, hrc, isSrsEv]
    · rw [hmm, hre]
      simp
    · intro L hL
      rw [hmm] at hL
      exact (mainAfterSrs_layer w _ _ _ L hL).2.1
  · intro L hL
    have hres3 : resolveSrs w none = .ok none := rfl
    have hmm : main w dirVal none =
        mainAfterSrs w (Path.withExtension dirVal "shp")
          (srsEvents none) none := by
      simp only [main, hres3]
    rw [hmm] at hL
    exact (mainAfterSrs_layer w _ _ _ L hL).2.1

/-- Witness for C6: an unresolvable EPSG code 4326 aborts before creating
anything. -/
theorem claim_C6_witness :
    main badSrsWorld "d" (some "4326") =
      { events := [Event.srsFromEpsg 4326], dsPath := none, layer := none,
        result := .error (.GdalError { msg := "unknown epsg" }) } :=
  (claim_C6 badSrsWorld "d" "4326" 4326 (by decide)).1
    { msg := "unknown epsg" } rfl

/-- Claim C9: a supplied --epsg value that does not parse as an unsigned
32-bit integer is silently ignored: the run is identical to a run with no
EPSG code supplied, and any resulting layer has no spatial reference. -/
theorem claim_C9 (w : World) (dirVal s : String)
    (hbad : parseU32 s = none) :
    main w dirVal (some s) = main w dirVal none ∧
    ∀ L, (main w dirVal (some s)).layer = some L → L.srs = none := by
  have hb : (some s).bind parseU32 = none := hbad
  have hbn : (none : Option String).bind parseU32 = none := rfl
  have h1 : main w dirVal (some s) = main w dirVal none := by
    simp only [main, resolveSrs, srsEvents, hb, hbn]
  refine ⟨h1, ?_⟩
  intro L hL
  rw [h1] at hL
  have hmm : main w dirVal none =
      mainAfterSrs w (Path.withExtension dirVal "shp") (srsEvents none)
        none := by
    have hres3 : resolveSrs w none = .ok none := rfl
    simp only [main, hres3]
  rw [hmm] at hL
  exact (mainAfterSrs_layer w _ _ _ L hL).2.1

/-- Witness for C9: the unparseable value "abc". -/
theorem claim_C9_witness :
    main okWorld "d" (some "abc") = main okWorld "d" none ∧
    ∀ L, (main okWorld "d" (some "abc")).layer = some L → L.srs = none :=
  claim_C9 okWorld "d" "abc" (by decide)

/-- Claim C10: under a working output backend, the dataset, the layer and
both attribute fields are created first — before the directory is listed
and before any input file is opened: the trace starts with the resolution
attempt and the four creation events, everything after is stream traffic
(listing, printing, opening, feature writing), and the dataset path is
recorded whatever the directory listing and the file reads do. -/
theorem claim_C10 (w : World) (dirVal : String) (epsgArg : Option String)
    (srs : Option SpatialRef)
    (hsrs : resolveSrs w epsgArg = .ok srs)
    (hdrv : w.driverGet = .ok ())
    (hds : w.dsCreate (Path.withExtension dirVal "shp") = .ok ())
    (hly : w.layerCreate = .ok ()) (hfl : w.fieldsCreate = .ok ()) :
    ∃ rest, (main w dirVal epsgArg).events =
        srsEvents epsgArg ++
          setupEvents (Path.withExtension dirVal "shp") srs ++ rest ∧
      (∀ e ∈ rest, isStreamEvent e = true) ∧
      (main w dirVal epsgArg).dsPath =
        some (Path.withExtension dirVal "shp") := by
  have hmm : main w dirVal epsgArg =
      mainAfterSrs w (Path.withExtension dirVal "shp") (srsEvents epsgArg)
        srs := by
    simp only [main, hsrs]
  rw [hmm]
  exact mainAfterSrs_setup_ok_shape w (Path.withExtension dirVal "shp")
    (srsEvents epsgArg) srs hdrv hds hly hfl

/-- Witness for C10: even when the directory cannot be listed, the dataset
and the full layer schema have already been created. -/
theorem claim_C10_witness :
    ∃ rest, (main noDirWorld "d" none).events =
        srsEvents none ++ setupEvents (Path.withExtension "d" "shp") none ++
          rest ∧
      (∀ e ∈ rest, isStreamEvent e = true) ∧
      (main noDirWorld "d" none).dsPath =
        some (Path.withExtension "d" "shp") :=
  claim_C10 noDirWorld "d" none none rfl rfl rfl rfl rfl

end LasBounds
